import Mathlib

/-!
# infra-deployer: HTTP handlers, request instrumentation and process lifecycle

A shallow embedding of `src/app/handlers.go` and `src/app/main.go`.

* A handler's effect on the `http.ResponseWriter` it is given is the ordered list of
  method calls it makes on it (`Call`), together with whether it returned or panicked.
* The `responseWriter` wrapper of `main.go` is a record holding the embedded writer
  (the calls it has received so far) and the captured `statusCode`.
* Go strings that come with a request are byte sequences (`GoString`); they need not
  be valid UTF-8.
* The Prometheus vectors are association lists from label tuples to series values;
  `WithLabelValues` panics on a label value that is not valid UTF-8.
* What the Go standard library does with the calls it receives (`net/http`'s own
  response type, `http.Error`, `http.NotFound`) is modelled separately and is marked
  as such.
-/

namespace InfraDeployer

/-! ## Requests, bodies and writer calls -/

/-- A Go `string`: a sequence of bytes (numbers 0 to 255), valid UTF-8 or not. The
decoded path of `GET /%ff` is the two bytes `[47, 255]`. -/
abbrev GoString := List Nat

/-- The UTF-8 encoding of one code point. -/
def utf8.encodeRune (c : Char) : List Nat :=
  if c.toNat < 0x80 then [c.toNat]
  else if c.toNat < 0x800 then [0xC0 + c.toNat / 64, 0x80 + c.toNat % 64]
  else if c.toNat < 0x10000 then
    [0xE0 + c.toNat / 4096, 0x80 + c.toNat / 64 % 64, 0x80 + c.toNat % 64]
  else
    [0xF0 + c.toNat / 262144, 0x80 + c.toNat / 4096 % 64, 0x80 + c.toNat / 64 % 64,
     0x80 + c.toNat % 64]

/-- A Go string literal: the UTF-8 bytes of its text. -/
def GoString.lit (s : String) : GoString :=
  s.toList.flatMap utf8.encodeRune

/-- Scanner behind `utf8.ValidString`: `due` continuation bytes are still expected,
the next of them within `lo..hi`. The lead bytes and ranges are those of well-formed
UTF-8: no overlong forms, no surrogates, nothing above U+10FFFF. -/
def utf8.scan : Nat → Nat → Nat → List Nat → Bool
  | 0, _, _, [] => true
  | _ + 1, _, _, [] => false
  | 0, _, _, b :: rest =>
      if b < 0x80 then utf8.scan 0 0 0 rest
      else if 0xC2 ≤ b ∧ b ≤ 0xDF then utf8.scan 1 0x80 0xBF rest
      else if b = 0xE0 then utf8.scan 2 0xA0 0xBF rest
      else if b = 0xED then utf8.scan 2 0x80 0x9F rest
      else if 0xE1 ≤ b ∧ b ≤ 0xEF then utf8.scan 2 0x80 0xBF rest
      else if b = 0xF0 then utf8.scan 3 0x90 0xBF rest
      else if 0xF1 ≤ b ∧ b ≤ 0xF3 then utf8.scan 3 0x80 0xBF rest
      else if b = 0xF4 then utf8.scan 3 0x80 0x8F rest
      else false
  | due + 1, lo, hi, b :: rest =>
      if lo ≤ b ∧ b ≤ hi then utf8.scan due 0x80 0xBF rest else false

/-- Library function `utf8.ValidString`: whether the bytes are well-formed UTF-8. -/
def utf8.ValidString (s : GoString) : Bool := utf8.scan 0 0 0 s

/-- The parts of `*http.Request` a handler can look at: `r.Method`, `r.URL.Path`
(the decoded path), `r.URL.RawQuery` and the request headers. -/
structure Request where
  method : GoString
  path : GoString
  query : GoString
  headers : List (GoString × GoString)

/-- The request with the given method and path, written as text, and neither query
nor headers. -/
def Request.plain (method path : String) : Request :=
  { method := GoString.lit method, path := GoString.lit path, query := [], headers := [] }

/-- JSON values as passed to `json.NewEncoder(w).Encode`: strings, integers and maps. -/
inductive JVal where
  | str (s : String)
  | num (n : Int)
  | obj (fields : List (String × JVal))

/-- One `Write` on the response writer.
* `json v`: `json.NewEncoder(w).Encode(v)`, the encoding of `v` and a newline;
* `line s`: `fmt.Fprintln(w, s)`, the text `s` and a newline;
* `raw s`: any other byte string. -/
inductive Body where
  | json (v : JVal)
  | line (s : String)
  | raw (s : String)

/-- A method call on an `http.ResponseWriter`. `headerSet`/`headerDel` stand for
`w.Header().Set(k, v)` and `w.Header().Del(k)`. -/
inductive Call where
  | headerSet (key value : String)
  | headerDel (key : String)
  | writeHeader (code : Int)
  | write (body : Body)

/-- How a handler invocation ended. -/
inductive Outcome where
  | returned
  | panicked
  deriving DecidableEq

/-- One invocation of an `http.Handler`: the calls it made on its writer, in order,
and how it ended. -/
structure HandlerRun where
  calls : List Call
  outcome : Outcome

/-- An `http.Handler`, as the run it performs on a request. -/
abbrev Handler := Request → HandlerRun

/-! ## Constants of `net/http` used by the program -/

def http.StatusOK : Int := 200
def http.StatusNotFound : Int := 404
def http.StatusMethodNotAllowed : Int := 405
def http.MethodGet : GoString := GoString.lit "GET"

/-- Library function `http.Error(w, msg, code)` of `net/http`, per its documentation:
it deletes `Content-Length`, sets `Content-Type: text/plain; charset=utf-8` and
`X-Content-Type-Options: nosniff`, writes the status `code` and prints `msg` as a line. -/
def http.Error (msg : String) (code : Int) : List Call :=
  [ .headerDel "Content-Length",
    .headerSet "Content-Type" "text/plain; charset=utf-8",
    .headerSet "X-Content-Type-Options" "nosniff",
    .writeHeader code,
    .write (.line msg) ]

/-- Library function `http.NotFound(w, r)`: `http.Error(w, "404 page not found", 404)`. -/
def http.NotFound : List Call :=
  http.Error "404 page not found" http.StatusNotFound

/-! ## `main.go`: configuration -/

/-- The process environment: `os.LookupEnv key` is `env key`. -/
abbrev Env := String → Option String

/-- Package variable `var version = "dev"`. -/
def version : String := "dev"

/-- Source `getEnv`: the looked-up value when the lookup succeeds, else the fallback. -/
def getEnv (env : Env) (key fallback : String) : String :=
  match env key with
  | some val => val
  | none => fallback

/-- Assignment `port := getEnv("PORT", "8080")` in `main`. -/
def port (env : Env) : String := getEnv env "PORT" "8080"

/-- Assignment `env := getEnv("ENVIRONMENT", "development")` in `main` and in `handleStatus`. -/
def environment (env : Env) : String := getEnv env "ENVIRONMENT" "development"

/-- Field `Addr: ":" + port` of the `http.Server` built in `main`. -/
def serverAddr (env : Env) : String := ":" ++ port env

/-! ## `handlers.go`: the three handlers -/

/-- Fields of `runtime.MemStats` read by `handleStatus` (`uint64`, `NumGC` is `uint32`). -/
structure MemStats where
  Alloc : Nat
  TotalAlloc : Nat
  Sys : Nat
  NumGC : Nat

/-- What the handlers read from the running process at call time. -/
structure Runtime where
  /-- Reading `time.Since(startTime).String()`. -/
  uptime : String
  /-- Reading `runtime.Version()`. -/
  goVersion : String
  /-- Reading `runtime.NumGoroutine()`. -/
  numGoroutine : Int
  /-- Reading `runtime.ReadMemStats`. -/
  mem : MemStats
  /-- Reading `time.Now().UTC().Format(time.RFC3339)`. -/
  timestamp : String

/-- Source `handleHealth`. -/
def handleHealth (rt : Runtime) : Handler := fun _ =>
  { calls :=
      [ .headerSet "Content-Type" "application/json",
        .writeHeader http.StatusOK,
        .write (.json (.obj [("status", .str "healthy"), ("uptime", .str rt.uptime)])) ],
    outcome := .returned }

/-- The map `resp` built by `handleStatus` on a `GET`. -/
def statusDocument (hostname env : String) (rt : Runtime) : JVal :=
  .obj
    [ ("service", .str "infra-deployer"),
      ("version", .str version),
      ("environment", .str env),
      ("hostname", .str hostname),
      ("uptime", .str rt.uptime),
      ("go_version", .str rt.goVersion),
      ("goroutines", .num rt.numGoroutine),
      ("memory", .obj
        [ ("alloc_mb", .num (rt.mem.Alloc / 1024 / 1024 : Nat)),
          ("total_alloc_mb", .num (rt.mem.TotalAlloc / 1024 / 1024 : Nat)),
          ("sys_mb", .num (rt.mem.Sys / 1024 / 1024 : Nat)),
          ("gc_cycles", .num (rt.mem.NumGC : Nat)) ]),
      ("timestamp", .str rt.timestamp) ]

/-- Source `handleStatus`; `hostname` is `os.Hostname()` and `osEnv` the process
environment, both read once when the handler is built. -/
def handleStatus (hostname : String) (osEnv : Env) (rt : Runtime) : Handler := fun r =>
  if r.method ≠ http.MethodGet then
    { calls := http.Error "method not allowed" http.StatusMethodNotAllowed,
      outcome := .returned }
  else
    { calls :=
        [ .headerSet "Content-Type" "application/json",
          .write (.json (statusDocument hostname (environment osEnv) rt)) ],
      outcome := .returned }

/-- The map written by `handleRoot` for the path `/`. -/
def discoveryDocument : JVal :=
  .obj
    [ ("message", .str "infra-deployer is running"),
      ("docs", .str "/api/v1/status"),
      ("health", .str "/health"),
      ("metrics", .str "/metrics") ]

/-- Source `handleRoot`. -/
def handleRoot : Handler := fun r =>
  if r.path ≠ GoString.lit "/" then
    { calls := http.NotFound, outcome := .returned }
  else
    { calls :=
        [ .headerSet "Content-Type" "application/json",
          .write (.json discoveryDocument) ],
      outcome := .returned }

/-! ## `net/http`: what the server sends for a sequence of writer calls -/

/-- The header map, single-valued (the program only uses `Set` and `Del`). -/
abbrev Header := List (String × String)

def Header.Set (h : Header) (key value : String) : Header :=
  (key, value) :: h.filter (fun kv => kv.1 ≠ key)

def Header.Del (h : Header) (key : String) : Header :=
  h.filter (fun kv => kv.1 ≠ key)

def Header.Get (h : Header) (key : String) : Option String :=
  (h.find? (fun kv => kv.1 = key)).map (fun kv => kv.2)

/-- State of the server's own response object. -/
structure Response where
  /-- The live header map returned by `Header()`. -/
  header : Header
  /-- The status line, once written. -/
  status : Option Int
  /-- The headers sent with the status line. -/
  sent : Header
  /-- The body writes, oldest first. -/
  body : List Body

/-- A response nothing has been written to. -/
def Response.fresh : Response :=
  { header := [], status := none, sent := [], body := [] }

/-- Library behaviour of `net/http`'s response on one call.
`WriteHeader` after the status line is written is ignored; otherwise a code outside
100..999 panics (`none`), a 1xx code other than 101 is sent as an informational
response without fixing the status, and any other code fixes the status line and the
headers. `Write` first fixes status 200 when none is fixed yet. -/
def Response.apply (resp : Response) : Call → Option Response
  | .headerSet k v => some { resp with header := Header.Set resp.header k v }
  | .headerDel k => some { resp with header := Header.Del resp.header k }
  | .writeHeader code =>
      if resp.status.isSome then some resp
      else if code < 100 ∨ 999 < code then none
      else if 100 ≤ code ∧ code ≤ 199 ∧ code ≠ 101 then some resp
      else some { resp with status := some code, sent := resp.header }
  | .write b =>
      if resp.status.isSome then some { resp with body := resp.body ++ [b] }
      else some { resp with status := some http.StatusOK, sent := resp.header,
                            body := resp.body ++ [b] }

/-- Library behaviour at handler return: a response without a status line gets 200. -/
def Response.finish (resp : Response) : Response :=
  if resp.status.isSome then resp
  else { resp with status := some http.StatusOK, sent := resp.header }

/-- Feeds the calls to the response in order; `none` when the library panics. -/
def Response.applyAll : Response → List Call → Option Response
  | resp, [] => some resp
  | resp, c :: cs =>
      match resp.apply c with
      | some resp1 => Response.applyAll resp1 cs
      | none => none

/-- The response a fresh server writer has sent once a handler that made `calls`
has returned. -/
def serverResponse (calls : List Call) : Option Response :=
  (Response.applyAll Response.fresh calls).map Response.finish

/-- The status line sent for `calls`. -/
def sentStatus (calls : List Call) : Option Int :=
  (serverResponse calls).bind (fun resp => resp.status)

/-- The `Content-Type` sent for `calls`. -/
def sentContentType (calls : List Call) : Option String :=
  (serverResponse calls).bind (fun resp => Header.Get resp.sent "Content-Type")

/-- The body writes sent for `calls`. -/
def sentBody (calls : List Call) : Option (List Body) :=
  (serverResponse calls).map (fun resp => resp.body)

/-- The codes of the `WriteHeader` calls among `calls`, in order. -/
def writeHeaderCodes : List Call → List Int
  | [] => []
  | .writeHeader code :: cs => code :: writeHeaderCodes cs
  | _ :: cs => writeHeaderCodes cs

/-- The JSON values written among `calls`, in order. -/
def jsonWrites : List Call → List JVal
  | [] => []
  | .write (.json v) :: cs => v :: jsonWrites cs
  | _ :: cs => jsonWrites cs

/-- The keys of a JSON object, in order (empty for a non-object). -/
def JVal.keys : JVal → List String
  | .obj fields => fields.map (fun kv => kv.1)
  | _ => []

/-- Field lookup in a JSON object. -/
def JVal.field (v : JVal) (key : String) : Option JVal :=
  match v with
  | .obj fields => (fields.find? (fun kv => kv.1 = key)).map (fun kv => kv.2)
  | _ => none

/-! ## `handlers.go`: the Prometheus vectors -/

/-- Series lookup in a metric vector; a series that does not exist yet reads `zero`. -/
def Vec.get {κ α : Type} [DecidableEq κ] (zero : α) : List (κ × α) → κ → α
  | [], _ => zero
  | (k, v) :: rest, key => if k = key then v else Vec.get zero rest key

/-- Library behaviour of `WithLabelValues(labels...)`, once the label values are
accepted, followed by an update `f` of the series: the series is created at `zero`
when it does not exist yet. -/
def Vec.update {κ α : Type} [DecidableEq κ] (zero : α) (f : α → α) :
    List (κ × α) → κ → List (κ × α)
  | [], key => [(key, f zero)]
  | (k, v) :: rest, key =>
      if k = key then (k, f v) :: rest else (k, v) :: Vec.update zero f rest key

/-- Library behaviour of `WithLabelValues`: the call panics unless every label value
is valid UTF-8 (the number of values always matches the vector here). -/
def validateLabelValues (vals : List GoString) : Bool :=
  vals.all utf8.ValidString

/-- Counter vector `http_requests_total`, labels `method`, `path`, `status`. -/
abbrev CounterVec := List ((GoString × GoString × GoString) × Nat)

/-- Histogram vector `http_request_duration_seconds`, labels `method`, `path`; a
series is the list of its observations, oldest first. -/
abbrev HistogramVec := List ((GoString × GoString) × List Int)

/-- Gauge vector `app_info`, labels `version`, `go_version`. -/
abbrev GaugeVec := List ((String × String) × Int)

def CounterVec.value (c : CounterVec) (labels : GoString × GoString × GoString) : Nat :=
  Vec.get 0 c labels

/-- Models `c.WithLabelValues(method, path, status).Inc()`; `none` is the panic of
`WithLabelValues` on a label value that is not valid UTF-8. -/
def CounterVec.Inc (c : CounterVec) (labels : GoString × GoString × GoString) :
    Option CounterVec :=
  if validateLabelValues [labels.1, labels.2.1, labels.2.2] then
    some (Vec.update 0 (fun n => n + 1) c labels)
  else none

/-- The counter summed over all its series. -/
def CounterVec.total (c : CounterVec) : Nat :=
  (c.map (fun kv => kv.2)).sum

def HistogramVec.observations (h : HistogramVec) (labels : GoString × GoString) :
    List Int :=
  Vec.get [] h labels

/-- Models `h.WithLabelValues(method, path).Observe(d)`; `none` is the panic of
`WithLabelValues` on a label value that is not valid UTF-8. -/
def HistogramVec.Observe (h : HistogramVec) (labels : GoString × GoString) (d : Int) :
    Option HistogramVec :=
  if validateLabelValues [labels.1, labels.2] then
    some (Vec.update [] (fun obs => obs ++ [d]) h labels)
  else none

/-- The three vectors declared in `handlers.go`. -/
structure Metrics where
  httpRequestsTotal : CounterVec
  httpRequestDuration : HistogramVec
  appInfo : GaugeVec

/-- The vectors after `init()`: `appInfo.WithLabelValues(version, runtime.Version()).Set(1)`. -/
def Metrics.init (goVersion : String) : Metrics :=
  { httpRequestsTotal := [], httpRequestDuration := [],
    appInfo := Vec.update 0 (fun _ => 1) [] (version, goVersion) }

/-! ## `main.go`: the status-capturing writer and the request logger -/

/-- Source `type responseWriter struct`: the embedded `http.ResponseWriter`, given as
the calls it has received so far, and the captured status code. -/
structure responseWriter where
  ResponseWriter : List Call
  statusCode : Int

/-- Source `(*responseWriter).WriteHeader`. -/
def responseWriter.WriteHeader (rw : responseWriter) (code : Int) : responseWriter :=
  let rw1 := { rw with statusCode := code }
  { rw1 with ResponseWriter := rw1.ResponseWriter ++ [.writeHeader code] }

/-- Method promotion of the embedded writer: `Header` and `Write` on a
`responseWriter` are the embedded writer's own methods. -/
def responseWriter.promoted (rw : responseWriter) (c : Call) : responseWriter :=
  { rw with ResponseWriter := rw.ResponseWriter ++ [c] }

/-- Method dispatch on a `*responseWriter`. -/
def responseWriter.call (rw : responseWriter) : Call → responseWriter
  | .writeHeader code => rw.WriteHeader code
  | c => rw.promoted c

/-- All the calls of a run, in order. -/
def responseWriter.callAll (rw : responseWriter) (calls : List Call) : responseWriter :=
  calls.foldl responseWriter.call rw

/-- Formatting `fmt.Sprintf("%d", code)`: the decimal digits, with a leading minus
sign for a negative number. -/
def fmtDecimal (code : Int) : GoString := GoString.lit (toString code)

/-- The two readings of `time.Since(start)` in `requestLogger`, in nanoseconds. -/
structure Clock where
  logElapsed : Int
  obsElapsed : Int

/-- A line printed by `logger.Printf("%s %s %d %s", ...)`. -/
structure LogLine where
  method : GoString
  path : GoString
  status : Int
  elapsed : Int
  deriving DecidableEq

/-- Process-wide state touched by the request logger. -/
structure ServerState where
  metrics : Metrics
  log : List LogLine

/-- Line 78 of `main.go`: `&responseWriter{ResponseWriter: w, statusCode: http.StatusOK}`. -/
def wrapWriter (w : List Call) : responseWriter :=
  { ResponseWriter := w, statusCode := http.StatusOK }

/-- Result of one pass through the request logger: how it ended, the calls the
underlying writer `w` has received, and the state left behind. -/
structure Served where
  outcome : Outcome
  writer : List Call
  state : ServerState

/-- Source `requestLogger`, the handler it returns applied to writer `w` and request
`r`. There is no `defer`/`recover`: when `next.ServeHTTP` panics the statements
after it do not run and the panic leaves the function; when `WithLabelValues`
panics on line 81 the line is logged but nothing is counted or observed, and a panic
on line 82 would leave the increment of line 81 in place. The histogram observation
is recorded as the elapsed time itself. -/
def requestLogger (next : Handler) (w : List Call) (r : Request) (clk : Clock)
    (st : ServerState) : Served :=
  let wrapped := wrapWriter w
  let run := next r
  let wrapped := wrapped.callAll run.calls
  match run.outcome with
  | .panicked => { outcome := .panicked, writer := wrapped.ResponseWriter, state := st }
  | .returned =>
      let log := st.log ++ [{ method := r.method, path := r.path,
                              status := wrapped.statusCode, elapsed := clk.logElapsed }]
      match st.metrics.httpRequestsTotal.Inc
          (r.method, r.path, fmtDecimal wrapped.statusCode) with
      | none =>
          { outcome := .panicked, writer := wrapped.ResponseWriter,
            state := { st with log := log } }
      | some counter =>
          match st.metrics.httpRequestDuration.Observe (r.method, r.path) clk.obsElapsed with
          | none =>
              { outcome := .panicked, writer := wrapped.ResponseWriter,
                state := { metrics := { st.metrics with httpRequestsTotal := counter },
                           log := log } }
          | some histogram =>
              { outcome := .returned, writer := wrapped.ResponseWriter,
                state := { metrics := { st.metrics with httpRequestsTotal := counter,
                                                        httpRequestDuration := histogram },
                           log := log } }

/-- One request reaching the server: the run of the inner handler on it is
`next request`, with the clock readings taken while it is served. -/
structure Arrival where
  next : Handler
  request : Request
  clock : Clock

/-- A sequence of requests served one after the other, each on a fresh writer; the
server recovers a panic of one request and goes on with the next. -/
def serveAll : List Arrival → ServerState → ServerState
  | [], st => st
  | a :: rest, st => serveAll rest (requestLogger a.next [] a.request a.clock st).state

/-- Whether every call of the list is a `Header().Set` or a `Header().Del`. -/
def headerCallsOnly : List Call → Bool
  | [] => true
  | .headerSet _ _ :: cs => headerCallsOnly cs
  | .headerDel _ :: cs => headerCallsOnly cs
  | _ => false

/-- The code of the last `WriteHeader` call among `calls`, `dflt` when there is none. -/
def lastWriteHeader (dflt : Int) : List Call → Int
  | [] => dflt
  | .writeHeader code :: cs => lastWriteHeader code cs
  | _ :: cs => lastWriteHeader dflt cs

/-! ## `main.go`: process lifecycle -/

/-- Constant `time.Second`, in nanoseconds. -/
def second : Int := 1000000000

/-- The timeout of `context.WithTimeout(context.Background(), 30*time.Second)`. -/
def shutdownTimeout : Int := 30 * second

/-- Lifecycle of `main`; `stopped` and `fatal` are final. -/
inductive Phase where
  | starting
  | listening
  | draining
  | stopped
  | fatal
  deriving DecidableEq

/-- The exit status of a final phase: `main` returning is status 0, `logger.Fatalf`
is `os.Exit(1)`. -/
def Phase.exitStatus : Phase → Option Nat
  | .stopped => some 0
  | .fatal => some 1
  | _ => none

/-- What happens to the process. -/
inductive Event where
  /-- The listener of `srv.ListenAndServe()` is bound. -/
  | bound
  /-- Call `srv.ListenAndServe()` returns an error other than `http.ErrServerClosed`. -/
  | serveError
  /-- A value arrives on `done` (interrupt or SIGTERM). -/
  | signal
  /-- The call `srv.Shutdown(ctx)` returns. -/
  | shutdownReturns

/-- Lines 58 to 65 of `main`: `srv.Shutdown` is called with a context of
`shutdownTimeout`; an error is `logger.Fatalf`, otherwise `main` returns. `Shutdown`
is the library call, as the error it returns for a given context timeout. -/
def drain (Shutdown : Int → Option String) : Phase :=
  match Shutdown shutdownTimeout with
  | some _ => .fatal
  | none => .stopped

/-- One step of the lifecycle of `main`. -/
def step (Shutdown : Int → Option String) : Phase → Event → Phase
  | .starting, .bound => .listening
  | .starting, .serveError => .fatal
  | .listening, .serveError => .fatal
  | .starting, .signal => .draining
  | .listening, .signal => .draining
  | .draining, .shutdownReturns => drain Shutdown
  | p, _ => p

/-- The phase reached from `p` after the events `es`. -/
def runLifecycle (Shutdown : Int → Option String) (p : Phase) (es : List Event) : Phase :=
  es.foldl (step Shutdown) p

/-! ## Auxiliary lemmas -/

theorem Vec.get_update_self {κ α : Type} [DecidableEq κ] (zero : α) (f : α → α)
    (l : List (κ × α)) (key : κ) :
    Vec.get zero (Vec.update zero f l key) key = f (Vec.get zero l key) := by
  induction l with
  | nil => simp [Vec.update, Vec.get]
  | cons hd tl ih =>
    obtain ⟨k, v⟩ := hd
    by_cases hk : k = key
    · simp [Vec.update, Vec.get, hk]
    · simp [Vec.update, Vec.get, hk, ih]

theorem Vec.get_update_other {κ α : Type} [DecidableEq κ] (zero : α) (f : α → α)
    (l : List (κ × α)) (key other : κ) (hne : other ≠ key) :
    Vec.get zero (Vec.update zero f l key) other = Vec.get zero l other := by
  induction l with
  | nil =>
    have hne2 : ¬ key = other := fun h => hne h.symm
    simp [Vec.update, Vec.get, hne2]
  | cons hd tl ih =>
    obtain ⟨k, v⟩ := hd
    by_cases hk : k = key
    · have hko : ¬ k = other := fun h => hne (h.symm.trans hk)
      simp [Vec.update, Vec.get, hk, hko, hk ▸ hko]
    · by_cases hko : k = other
      · subst hko
        simp [Vec.update, Vec.get, hk]
      · simp [Vec.update, Vec.get, hk, hko, ih]

theorem CounterVec.total_update (c : CounterVec)
    (labels : GoString × GoString × GoString) :
    CounterVec.total (Vec.update 0 (fun n => n + 1) c labels) = c.total + 1 := by
  induction c with
  | nil => simp [CounterVec.total, Vec.update]
  | cons hd tl ih =>
    obtain ⟨k, v⟩ := hd
    by_cases hk : k = labels
    · simp [CounterVec.total, Vec.update, hk]
      omega
    · simp only [CounterVec.total] at ih
      simp [CounterVec.total, Vec.update, hk, ih]
      omega

theorem utf8.scan_ascii (s : List Nat) (h : ∀ b ∈ s, b < 0x80) :
    utf8.scan 0 0 0 s = true := by
  induction s with
  | nil => rfl
  | cons b rest ih =>
    have hb : b < 0x80 := h b (List.mem_cons_self b rest)
    simp only [utf8.scan, hb, if_true]
    exact ih (fun c hc => h c (List.mem_cons_of_mem b hc))

theorem GoString.lit_ascii (cs : List Char) (h : ∀ c ∈ cs, c.toNat < 0x80) :
    ∀ b ∈ cs.flatMap utf8.encodeRune, b < 0x80 := by
  intro b hb
  rw [List.mem_flatMap] at hb
  obtain ⟨c, hc, hbc⟩ := hb
  have := h c hc
  simp [utf8.encodeRune, this] at hbc
  omega

theorem digitChar_ascii (n : Nat) (h : n < 10) : (Nat.digitChar n).toNat < 0x80 := by
  interval_cases n <;> decide

theorem toDigitsCore_ascii (fuel n : Nat) (ds : List Char)
    (h : ∀ c ∈ ds, c.toNat < 0x80) :
    ∀ c ∈ Nat.toDigitsCore 10 fuel n ds, c.toNat < 0x80 := by
  induction fuel generalizing n ds with
  | zero => simpa [Nat.toDigitsCore] using h
  | succ fuel ih =>
    have hcons : ∀ c ∈ Nat.digitChar (n % 10) :: ds, c.toNat < 0x80 := by
      intro c hc
      rcases List.mem_cons.mp hc with hc | hc
      · rw [hc]
        exact digitChar_ascii _ (Nat.mod_lt _ (by decide))
      · exact h c hc
    simp only [Nat.toDigitsCore]
    split
    · exact hcons
    · exact ih _ _ hcons

theorem natRepr_ascii (n : Nat) : ∀ c ∈ (toString n).toList, c.toNat < 0x80 := by
  have hrepr : (toString n).toList = Nat.toDigits 10 n := rfl
  rw [hrepr]
  exact toDigitsCore_ascii _ _ _ (by simp)

theorem intRepr_ascii (i : Int) : ∀ c ∈ (toString i).toList, c.toNat < 0x80 := by
  cases i with
  | ofNat m => exact natRepr_ascii m
  | negSucc m =>
    have hrepr : (toString (Int.negSucc m)).toList = '-' :: (toString (m + 1)).toList := rfl
    rw [hrepr]
    intro c hc
    rcases List.mem_cons.mp hc with hc | hc
    · rw [hc]
      decide
    · exact natRepr_ascii _ c hc

/-- The output of `fmt.Sprintf("%d", code)` is always valid UTF-8. -/
theorem fmtDecimal_valid (code : Int) : utf8.ValidString (fmtDecimal code) = true :=
  utf8.scan_ascii _ (GoString.lit_ascii _ (intRepr_ascii code))

theorem CounterVec.Inc_of_valid (c : CounterVec) (method path : GoString) (code : Int)
    (hm : utf8.ValidString method = true) (hp : utf8.ValidString path = true) :
    c.Inc (method, path, fmtDecimal code)
      = some (Vec.update 0 (fun n => n + 1) c (method, path, fmtDecimal code)) := by
  simp [CounterVec.Inc, validateLabelValues, hm, hp, fmtDecimal_valid]

theorem CounterVec.Inc_of_invalid (c : CounterVec) (method path status : GoString)
    (h : utf8.ValidString method = false ∨ utf8.ValidString path = false) :
    c.Inc (method, path, status) = none := by
  rcases h with h | h <;> simp [CounterVec.Inc, validateLabelValues, h]

theorem HistogramVec.Observe_of_valid (h : HistogramVec) (method path : GoString) (d : Int)
    (hm : utf8.ValidString method = true) (hp : utf8.ValidString path = true) :
    h.Observe (method, path) d
      = some (Vec.update [] (fun obs => obs ++ [d]) h (method, path)) := by
  simp [HistogramVec.Observe, validateLabelValues, hm, hp]

theorem responseWriter.callAll_writer (calls : List Call) (rw : responseWriter) :
    (rw.callAll calls).ResponseWriter = rw.ResponseWriter ++ calls := by
  induction calls generalizing rw with
  | nil => simp [responseWriter.callAll]
  | cons c cs ih =>
    have hstep : (rw.call c).ResponseWriter = rw.ResponseWriter ++ [c] := by
      cases c <;> rfl
    have := ih (rw.call c)
    simp only [responseWriter.callAll, List.foldl_cons] at this ⊢
    rw [this, hstep]
    simp

theorem responseWriter.callAll_status (calls : List Call) (rw : responseWriter) :
    (rw.callAll calls).statusCode = lastWriteHeader rw.statusCode calls := by
  induction calls generalizing rw with
  | nil => simp [responseWriter.callAll, lastWriteHeader]
  | cons c cs ih =>
    have := ih (rw.call c)
    simp only [responseWriter.callAll, List.foldl_cons] at this ⊢
    rw [this]
    cases c <;> rfl

theorem lastWriteHeader_of_none (dflt : Int) (calls : List Call)
    (h : writeHeaderCodes calls = []) : lastWriteHeader dflt calls = dflt := by
  induction calls with
  | nil => rfl
  | cons c cs ih =>
    cases c with
    | writeHeader code => simp [writeHeaderCodes] at h
    | headerSet k v => simpa [lastWriteHeader] using ih (by simpa [writeHeaderCodes] using h)
    | headerDel k => simpa [lastWriteHeader] using ih (by simpa [writeHeaderCodes] using h)
    | write b => simpa [lastWriteHeader] using ih (by simpa [writeHeaderCodes] using h)

theorem requestLogger_returned (next : Handler) (w : List Call) (r : Request)
    (clk : Clock) (st : ServerState) (hret : (next r).outcome = .returned)
    (hm : utf8.ValidString r.method = true) (hp : utf8.ValidString r.path = true) :
    requestLogger next w r clk st =
      { outcome := .returned,
        writer := ((wrapWriter w).callAll (next r).calls).ResponseWriter,
        state :=
          { metrics :=
              { httpRequestsTotal := Vec.update 0 (fun n => n + 1)
                  st.metrics.httpRequestsTotal
                  (r.method, r.path,
                   fmtDecimal ((wrapWriter w).callAll (next r).calls).statusCode),
                httpRequestDuration := Vec.update [] (fun obs => obs ++ [clk.obsElapsed])
                  st.metrics.httpRequestDuration (r.method, r.path),
                appInfo := st.metrics.appInfo },
            log := st.log ++
              [{ method := r.method, path := r.path,
                 status := ((wrapWriter w).callAll (next r).calls).statusCode,
                 elapsed := clk.logElapsed }] } } := by
  simp [requestLogger, hret, CounterVec.Inc_of_valid _ _ _ _ hm hp,
    HistogramVec.Observe_of_valid _ _ _ _ hm hp]

theorem requestLogger_log (next : Handler) (w : List Call) (r : Request)
    (clk : Clock) (st : ServerState) (hret : (next r).outcome = .returned) :
    (requestLogger next w r clk st).state.log
      = st.log ++
          [{ method := r.method, path := r.path,
             status := ((wrapWriter w).callAll (next r).calls).statusCode,
             elapsed := clk.logElapsed }] := by
  simp only [requestLogger, hret]
  split
  · rfl
  · split <;> rfl

theorem requestLogger_invalid_label (next : Handler) (w : List Call) (r : Request)
    (clk : Clock) (st : ServerState) (hret : (next r).outcome = .returned)
    (hbad : utf8.ValidString r.method = false ∨ utf8.ValidString r.path = false) :
    (requestLogger next w r clk st).outcome = .panicked ∧
    (requestLogger next w r clk st).state.metrics = st.metrics := by
  simp [requestLogger, hret, CounterVec.Inc_of_invalid _ _ _ _ hbad]

theorem requestLogger_panicked (next : Handler) (w : List Call) (r : Request)
    (clk : Clock) (st : ServerState) (hpanic : (next r).outcome = .panicked) :
    requestLogger next w r clk st =
      { outcome := .panicked,
        writer := ((wrapWriter w).callAll (next r).calls).ResponseWriter,
        state := st } := by
  simp [requestLogger, hpanic]

theorem serveAll_total (arrivals : List Arrival) (st : ServerState)
    (hall : ∀ a ∈ arrivals, (a.next a.request).outcome = .returned ∧
      utf8.ValidString a.request.method = true ∧ utf8.ValidString a.request.path = true) :
    (serveAll arrivals st).metrics.httpRequestsTotal.total
      = st.metrics.httpRequestsTotal.total + arrivals.length := by
  induction arrivals generalizing st with
  | nil => simp [serveAll]
  | cons a rest ih =>
    obtain ⟨ha, hm, hp⟩ := hall a (List.mem_cons_self a rest)
    have hrest : ∀ b ∈ rest, (b.next b.request).outcome = .returned ∧
        utf8.ValidString b.request.method = true ∧ utf8.ValidString b.request.path = true :=
      fun b hb => hall b (List.mem_cons_of_mem a hb)
    simp only [serveAll, List.length_cons]
    rw [ih _ hrest, requestLogger_returned a.next [] a.request a.clock st ha hm hp]
    simp only [CounterVec.total_update]
    omega

theorem Response.applyAll_append (xs ys : List Call) (resp : Response) :
    Response.applyAll resp (xs ++ ys)
      = (Response.applyAll resp xs).bind (fun resp1 => Response.applyAll resp1 ys) := by
  induction xs generalizing resp with
  | nil => rfl
  | cons c cs ih =>
    simp only [List.cons_append, Response.applyAll]
    cases resp.apply c with
    | none => rfl
    | some resp1 => exact ih resp1

theorem Response.applyAll_committed (calls : List Call) (resp : Response) (a : Int)
    (h : resp.status = some a) :
    ∃ resp1, Response.applyAll resp calls = some resp1 ∧ resp1.status = some a := by
  induction calls generalizing resp with
  | nil => exact ⟨resp, rfl, h⟩
  | cons c cs ih =>
    cases c with
    | headerSet k v =>
      exact ih { resp with header := Header.Set resp.header k v } h
    | headerDel k =>
      exact ih { resp with header := Header.Del resp.header k } h
    | writeHeader code =>
      have hstep : resp.apply (.writeHeader code) = some resp := by
        simp [Response.apply, h]
      simp only [Response.applyAll, hstep]
      exact ih resp h
    | write b =>
      have hstep : resp.apply (.write b) = some { resp with body := resp.body ++ [b] } := by
        simp [Response.apply, h]
      simp only [Response.applyAll, hstep]
      exact ih _ h

theorem Response.applyAll_headers (pre : List Call) (resp : Response)
    (hpre : headerCallsOnly pre = true) (h : resp.status = none) :
    ∃ resp1, Response.applyAll resp pre = some resp1 ∧ resp1.status = none := by
  induction pre generalizing resp with
  | nil => exact ⟨resp, rfl, h⟩
  | cons c cs ih =>
    cases c with
    | headerSet k v =>
      exact ih { resp with header := Header.Set resp.header k v } hpre h
    | headerDel k =>
      exact ih { resp with header := Header.Del resp.header k } hpre h
    | writeHeader code => simp [headerCallsOnly] at hpre
    | write b => simp [headerCallsOnly] at hpre

theorem sentStatus_of_committed (pre rest : List Call) (c : Call) (a : Int)
    (hpre : headerCallsOnly pre = true)
    (hc : ∀ resp : Response, resp.status = none →
      ∃ resp1, resp.apply c = some resp1 ∧ resp1.status = some a) :
    sentStatus (pre ++ c :: rest) = some a := by
  obtain ⟨r1, h1, hs1⟩ := Response.applyAll_headers pre Response.fresh hpre rfl
  obtain ⟨r2, h2, hs2⟩ := hc r1 hs1
  obtain ⟨r3, h3, hs3⟩ := Response.applyAll_committed rest r2 a hs2
  simp [sentStatus, serverResponse, Response.applyAll_append, h1, Response.applyAll, h2, h3,
    Response.finish, hs3]

theorem lastWriteHeader_headers (pre cs : List Call) (dflt : Int)
    (hpre : headerCallsOnly pre = true) :
    lastWriteHeader dflt (pre ++ cs) = lastWriteHeader dflt cs := by
  induction pre with
  | nil => rfl
  | cons c rest ih =>
    cases c with
    | headerSet k v => exact ih hpre
    | headerDel k => exact ih hpre
    | writeHeader code => simp [headerCallsOnly] at hpre
    | write b => simp [headerCallsOnly] at hpre

theorem lastWriteHeader_snoc (mid : List Call) (dflt c : Int) :
    lastWriteHeader dflt (mid ++ [.writeHeader c]) = c := by
  induction mid generalizing dflt with
  | nil => rfl
  | cons x rest ih =>
    cases x with
    | headerSet k v => exact ih dflt
    | headerDel k => exact ih dflt
    | writeHeader code => exact ih code
    | write b => exact ih dflt

theorem step_final_absorbing (Shutdown : Int → Option String) (p : Phase) (e : Event)
    (hp : p = .stopped ∨ p = .fatal) : step Shutdown p e = p := by
  rcases hp with hp | hp <;> subst hp <;> cases e <;> rfl

theorem drain_final (Shutdown : Int → Option String) :
    drain Shutdown = .stopped ∨ drain Shutdown = .fatal := by
  unfold drain
  cases Shutdown shutdownTimeout <;> simp

theorem runLifecycle_final (Shutdown : Int → Option String) (es : List Event) (p : Phase)
    (hp : p = .stopped ∨ p = .fatal) : runLifecycle Shutdown p es = p := by
  induction es with
  | nil => rfl
  | cons e rest ih =>
    simp only [runLifecycle, List.foldl_cons] at ih ⊢
    rw [step_final_absorbing Shutdown p e hp]
    exact ih

theorem runLifecycle_draining (Shutdown : Int → Option String) (es : List Event) :
    runLifecycle Shutdown .draining es = .draining ∨
    runLifecycle Shutdown .draining es = drain Shutdown := by
  induction es with
  | nil => exact Or.inl rfl
  | cons e rest ih =>
    cases e with
    | shutdownReturns =>
      right
      have h := runLifecycle_final Shutdown rest (drain Shutdown) (drain_final Shutdown)
      simpa [runLifecycle, step] using h
    | bound => simpa [runLifecycle, step] using ih
    | serveError => simpa [runLifecycle, step] using ih
    | signal => simpa [runLifecycle, step] using ih

/-! ## The handlers -/

/-- C1: for every request (any method, path, query, headers) and any runtime reading,
`handleHealth` returns, calls `WriteHeader` exactly once and with 200, the status
sent is 200, and the body is one JSON object with exactly the fields `status`
(value `healthy`) and `uptime`, sent as `application/json`. -/
theorem handleHealth_always_200 (rt : Runtime) (r : Request) :
    (handleHealth rt r).outcome = .returned ∧
    writeHeaderCodes (handleHealth rt r).calls = [200] ∧
    sentStatus (handleHealth rt r).calls = some 200 ∧
    sentContentType (handleHealth rt r).calls = some "application/json" ∧
    (∃ doc : JVal,
      sentBody (handleHealth rt r).calls = some [.json doc] ∧
      doc.keys = ["status", "uptime"] ∧
      doc.field "status" = some (.str "healthy") ∧
      doc.field "uptime" = some (.str rt.uptime)) := by
  refine ⟨rfl, rfl, ?_, ?_,
    ⟨.obj [("status", .str "healthy"), ("uptime", .str rt.uptime)], ?_, rfl, ?_, ?_⟩⟩
  · simp [sentStatus, serverResponse, handleHealth, Response.applyAll, Response.apply,
      Response.fresh, Response.finish, http.StatusOK]
  · simp [sentContentType, serverResponse, handleHealth, Response.applyAll, Response.apply,
      Response.fresh, Response.finish, http.StatusOK, Header.Get, Header.Set]
  · simp [sentBody, serverResponse, handleHealth, Response.applyAll, Response.apply,
      Response.fresh, Response.finish, http.StatusOK]
  · simp [JVal.field]
  · simp [JVal.field]

/-- C2: `handleStatus` answers any method other than exactly `GET` with status 405,
the plain-text line `method not allowed` and no JSON; it answers `GET` with status
200 and one JSON object with the keys service, version, environment, hostname,
uptime, go_version, goroutines, memory (an object with alloc_mb, total_alloc_mb,
sys_mb, gc_cycles) and timestamp. -/
theorem handleStatus_get_only (hostname : String) (osEnv : Env) (rt : Runtime)
    (r : Request) :
    (handleStatus hostname osEnv rt r).outcome = .returned ∧
    (r.method ≠ GoString.lit "GET" →
      sentStatus (handleStatus hostname osEnv rt r).calls = some 405 ∧
      sentContentType (handleStatus hostname osEnv rt r).calls
        = some "text/plain; charset=utf-8" ∧
      sentBody (handleStatus hostname osEnv rt r).calls
        = some [.line "method not allowed"] ∧
      jsonWrites (handleStatus hostname osEnv rt r).calls = []) ∧
    (r.method = GoString.lit "GET" →
      sentStatus (handleStatus hostname osEnv rt r).calls = some 200 ∧
      ∃ doc mem : JVal,
        sentBody (handleStatus hostname osEnv rt r).calls = some [.json doc] ∧
        doc.keys = ["service", "version", "environment", "hostname", "uptime",
                    "go_version", "goroutines", "memory", "timestamp"] ∧
        doc.field "memory" = some mem ∧
        mem.keys = ["alloc_mb", "total_alloc_mb", "sys_mb", "gc_cycles"]) := by
  refine ⟨?_, ?_, ?_⟩
  · unfold handleStatus
    split <;> rfl
  · intro hm
    have hm2 : r.method ≠ http.MethodGet := hm
    simp [handleStatus, hm2, sentStatus, sentContentType, sentBody, serverResponse,
      http.Error, Response.applyAll, Response.apply, Response.fresh, Response.finish,
      http.StatusMethodNotAllowed, Header.Get, Header.Set, Header.Del, jsonWrites]
  · intro hm
    have hm2 : r.method = http.MethodGet := hm
    refine ⟨?_, statusDocument hostname (environment osEnv) rt, .obj
        [ ("alloc_mb", .num (rt.mem.Alloc / 1024 / 1024 : Nat)),
          ("total_alloc_mb", .num (rt.mem.TotalAlloc / 1024 / 1024 : Nat)),
          ("sys_mb", .num (rt.mem.Sys / 1024 / 1024 : Nat)),
          ("gc_cycles", .num (rt.mem.NumGC : Nat)) ], ?_, rfl, ?_, rfl⟩
    · simp [handleStatus, hm2, sentStatus, serverResponse, Response.applyAll,
        Response.apply, Response.fresh, Response.finish, http.StatusOK]
    · simp [handleStatus, hm2, sentBody, serverResponse, Response.applyAll,
        Response.apply, Response.fresh, Response.finish, http.StatusOK]
    · simp [statusDocument, JVal.field]

/-- C2, at a `POST` and at a `GET`. -/
theorem handleStatus_get_only_witness :
    sentStatus (handleStatus "host" (fun _ => none)
      ⟨"1m0s", "go1.22", 4, ⟨0, 0, 0, 0⟩, "2024-01-01T00:00:00Z"⟩
      (Request.plain "POST" "/api/v1/status")).calls = some 405 ∧
    sentStatus (handleStatus "host" (fun _ => none)
      ⟨"1m0s", "go1.22", 4, ⟨0, 0, 0, 0⟩, "2024-01-01T00:00:00Z"⟩
      (Request.plain "GET" "/api/v1/status")).calls = some 200 :=
  ⟨((handleStatus_get_only "host" (fun _ => none)
      ⟨"1m0s", "go1.22", 4, ⟨0, 0, 0, 0⟩, "2024-01-01T00:00:00Z"⟩
      (Request.plain "POST" "/api/v1/status")).2.1 (by decide)).1,
   ((handleStatus_get_only "host" (fun _ => none)
      ⟨"1m0s", "go1.22", 4, ⟨0, 0, 0, 0⟩, "2024-01-01T00:00:00Z"⟩
      (Request.plain "GET" "/api/v1/status")).2.2 rfl).1⟩

/-- C3: whatever the method, `handleRoot` sends the 200 JSON discovery document
(message, docs `/api/v1/status`, health `/health`, metrics `/metrics`) exactly when
the URL path is `/`; for every other path the status is 404 and no JSON is written. -/
theorem handleRoot_exact_path (r : Request) :
    (handleRoot r).outcome = .returned ∧
    (r.path = GoString.lit "/" →
      sentStatus (handleRoot r).calls = some 200 ∧
      sentBody (handleRoot r).calls = some [.json discoveryDocument]) ∧
    (r.path ≠ GoString.lit "/" →
      sentStatus (handleRoot r).calls = some 404 ∧
      jsonWrites (handleRoot r).calls = []) ∧
    (sentBody (handleRoot r).calls = some [.json discoveryDocument]
      ↔ r.path = GoString.lit "/") ∧
    discoveryDocument.keys = ["message", "docs", "health", "metrics"] ∧
    discoveryDocument.field "docs" = some (.str "/api/v1/status") ∧
    discoveryDocument.field "health" = some (.str "/health") ∧
    discoveryDocument.field "metrics" = some (.str "/metrics") := by
  have hroot : r.path = GoString.lit "/" →
      sentStatus (handleRoot r).calls = some 200 ∧
      sentBody (handleRoot r).calls = some [.json discoveryDocument] := by
    intro hp
    simp [handleRoot, hp, sentStatus, sentBody, serverResponse, Response.applyAll,
      Response.apply, Response.fresh, Response.finish, http.StatusOK]
  have hother : r.path ≠ GoString.lit "/" →
      sentStatus (handleRoot r).calls = some 404 ∧
      jsonWrites (handleRoot r).calls = [] ∧
      sentBody (handleRoot r).calls = some [.line "404 page not found"] := by
    intro hp
    simp [handleRoot, hp, sentStatus, sentBody, serverResponse, http.NotFound, http.Error,
      Response.applyAll, Response.apply, Response.fresh, Response.finish,
      http.StatusNotFound, jsonWrites]
  refine ⟨?_, hroot, fun hp => ⟨(hother hp).1, (hother hp).2.1⟩, ⟨?_, fun hp => (hroot hp).2⟩,
    rfl, ?_, ?_, ?_⟩
  · unfold handleRoot
    split <;> rfl
  · intro hb
    by_contra hp
    rw [(hother hp).2.2] at hb
    simp at hb
  · simp [discoveryDocument, JVal.field]
  · simp [discoveryDocument, JVal.field]
  · simp [discoveryDocument, JVal.field]

/-- C3, at the paths `/` and `/unknown`. -/
theorem handleRoot_exact_path_witness :
    sentStatus (handleRoot (Request.plain "GET" "/")).calls = some 200 ∧
    sentStatus (handleRoot (Request.plain "GET" "/unknown")).calls = some 404 :=
  ⟨((handleRoot_exact_path (Request.plain "GET" "/")).2.1 rfl).1,
   ((handleRoot_exact_path (Request.plain "GET" "/unknown")).2.2.1 (by decide)).1⟩

/-- C8 as stated fails: the 404 that `handleRoot` sends for the unmatched path
`/unknown` carries `text/plain; charset=utf-8`, not `application/json`. -/
theorem notFound_is_not_json :
    sentStatus (handleRoot (Request.plain "GET" "/unknown")).calls = some 404 ∧
    sentContentType (handleRoot (Request.plain "GET" "/unknown")).calls
      = some "text/plain; charset=utf-8" ∧
    sentContentType (handleRoot (Request.plain "GET" "/unknown")).calls
      ≠ some "application/json" := by
  refine ⟨?_, ?_, ?_⟩ <;>
  simp [handleRoot, sentStatus, sentContentType, serverResponse, http.NotFound, http.Error,
    Response.applyAll, Response.apply, Response.fresh, Response.finish,
    http.StatusNotFound, Header.Get, Header.Set, Header.Del]

/-- C8, amended: the 200 responses of `handleHealth`, `handleStatus` and `handleRoot`
carry `application/json`; the 405 of `handleStatus` and the 404 of `handleRoot` both
carry `text/plain; charset=utf-8`. -/
theorem content_type_by_status (hostname : String) (osEnv : Env) (rt : Runtime)
    (r : Request) :
    sentContentType (handleHealth rt r).calls = some "application/json" ∧
    sentContentType (handleStatus hostname osEnv rt r).calls
      = some (if r.method = GoString.lit "GET" then "application/json"
              else "text/plain; charset=utf-8") ∧
    sentStatus (handleStatus hostname osEnv rt r).calls
      = some (if r.method = GoString.lit "GET" then 200 else 405) ∧
    sentContentType (handleRoot r).calls
      = some (if r.path = GoString.lit "/" then "application/json"
              else "text/plain; charset=utf-8") ∧
    sentStatus (handleRoot r).calls = some (if r.path = GoString.lit "/" then 200 else 404) := by
  refine ⟨?_, ?_, ?_, ?_, ?_⟩
  · simp [sentContentType, serverResponse, handleHealth, Response.applyAll, Response.apply,
      Response.fresh, Response.finish, http.StatusOK, Header.Get, Header.Set]
  · by_cases hm : r.method = GoString.lit "GET"
    · simp [handleStatus, http.MethodGet, hm, sentContentType, serverResponse, Response.applyAll,
        Response.apply, Response.fresh, Response.finish, http.StatusOK, Header.Get,
        Header.Set]
    · have hm2 : r.method ≠ http.MethodGet := hm
      simp [handleStatus, hm2, hm, sentContentType, serverResponse, http.Error,
        Response.applyAll, Response.apply, Response.fresh, Response.finish,
        http.StatusMethodNotAllowed, Header.Get, Header.Set, Header.Del]
  · by_cases hm : r.method = GoString.lit "GET"
    · simp [handleStatus, http.MethodGet, hm, sentStatus, serverResponse, Response.applyAll,
        Response.apply, Response.fresh, Response.finish, http.StatusOK]
    · have hm2 : r.method ≠ http.MethodGet := hm
      simp [handleStatus, hm2, hm, sentStatus, serverResponse, http.Error,
        Response.applyAll, Response.apply, Response.fresh, Response.finish,
        http.StatusMethodNotAllowed]
  · by_cases hp : r.path = GoString.lit "/"
    · simp [handleRoot, hp, sentContentType, serverResponse, Response.applyAll,
        Response.apply, Response.fresh, Response.finish, http.StatusOK, Header.Get,
        Header.Set]
    · simp [handleRoot, hp, sentContentType, serverResponse, http.NotFound, http.Error,
        Response.applyAll, Response.apply, Response.fresh, Response.finish,
        http.StatusNotFound, Header.Get, Header.Set, Header.Del]
  · by_cases hp : r.path = GoString.lit "/"
    · simp [handleRoot, hp, sentStatus, serverResponse, Response.applyAll,
        Response.apply, Response.fresh, Response.finish, http.StatusOK]
    · simp [handleRoot, hp, sentStatus, serverResponse, http.NotFound, http.Error,
        Response.applyAll, Response.apply, Response.fresh, Response.finish,
        http.StatusNotFound]

/-! ## The status-capturing writer and the request logger -/

/-- C6: the wrapper built by `requestLogger` starts with `statusCode` 200 around the
given writer and keeps 200 as long as no `WriteHeader` call is made; `WriteHeader
code` sets `statusCode` to `code` and forwards exactly the one call `WriteHeader code`;
every other call (`Header`, `Write`) is forwarded as it is and leaves `statusCode`
alone; so the embedded writer receives exactly the calls made, in order. -/
theorem responseWriter_records_and_forwards (w : List Call) (rw : responseWriter) :
    (wrapWriter w).statusCode = 200 ∧
    (wrapWriter w).ResponseWriter = w ∧
    (∀ calls : List Call, writeHeaderCodes calls = [] →
      ((wrapWriter w).callAll calls).statusCode = 200) ∧
    (∀ code : Int,
      (rw.call (.writeHeader code)).statusCode = code ∧
      (rw.call (.writeHeader code)).ResponseWriter
        = rw.ResponseWriter ++ [.writeHeader code]) ∧
    (∀ c : Call, (∀ code : Int, c ≠ .writeHeader code) →
      (rw.call c).statusCode = rw.statusCode ∧
      (rw.call c).ResponseWriter = rw.ResponseWriter ++ [c]) ∧
    (∀ calls : List Call, (rw.callAll calls).ResponseWriter = rw.ResponseWriter ++ calls) := by
  refine ⟨rfl, rfl, ?_, fun code => ⟨rfl, rfl⟩, ?_, fun calls =>
    responseWriter.callAll_writer calls rw⟩
  · intro calls hnone
    rw [responseWriter.callAll_status, lastWriteHeader_of_none _ _ hnone]
    rfl
  · intro c hc
    cases c with
    | writeHeader code => exact absurd rfl (hc code)
    | headerSet k v => exact ⟨rfl, rfl⟩
    | headerDel k => exact ⟨rfl, rfl⟩
    | write b => exact ⟨rfl, rfl⟩

/-- C6, on a header call and a body write followed by `WriteHeader 404`. -/
theorem responseWriter_records_and_forwards_witness :
    ((wrapWriter []).callAll
      [.headerSet "Content-Type" "text/plain", .write (.raw "hello")]).statusCode = 200 ∧
    (((wrapWriter []).callAll
      [.headerSet "Content-Type" "text/plain", .write (.raw "hello")]).call
        (.writeHeader 404)).statusCode = 404 :=
  ⟨(responseWriter_records_and_forwards [] (wrapWriter [])).2.2.1
      [.headerSet "Content-Type" "text/plain", .write (.raw "hello")] rfl,
   ((responseWriter_records_and_forwards [] ((wrapWriter []).callAll
      [.headerSet "Content-Type" "text/plain", .write (.raw "hello")])).2.2.2.1 404).1⟩

/-- For a request whose method and path are valid UTF-8 and whose inner handler
returns, one pass through `requestLogger` returns, increments `http_requests_total`
by one at (method, path, decimal captured status) and leaves every other series of it
alone, appends one observation to `http_request_duration_seconds` at (method, path)
and leaves every other series of it alone, and does not touch `app_info`; over any
sequence of such requests the counter total grows by the number of requests. -/
theorem requestLogger_counts_valid_request (next : Handler) (w : List Call) (r : Request)
    (clk : Clock) (st : ServerState) (arrivals : List Arrival)
    (hret : (next r).outcome = .returned)
    (hm : utf8.ValidString r.method = true) (hp : utf8.ValidString r.path = true)
    (hall : ∀ a ∈ arrivals, (a.next a.request).outcome = .returned ∧
      utf8.ValidString a.request.method = true ∧ utf8.ValidString a.request.path = true) :
    (requestLogger next w r clk st).outcome = .returned ∧
    (requestLogger next w r clk st).state.metrics.httpRequestsTotal.value
        (r.method, r.path, fmtDecimal ((wrapWriter w).callAll (next r).calls).statusCode)
      = st.metrics.httpRequestsTotal.value
          (r.method, r.path,
           fmtDecimal ((wrapWriter w).callAll (next r).calls).statusCode) + 1 ∧
    (∀ other : GoString × GoString × GoString,
      other ≠ (r.method, r.path,
               fmtDecimal ((wrapWriter w).callAll (next r).calls).statusCode) →
      (requestLogger next w r clk st).state.metrics.httpRequestsTotal.value other
        = st.metrics.httpRequestsTotal.value other) ∧
    (requestLogger next w r clk st).state.metrics.httpRequestDuration.observations
        (r.method, r.path)
      = st.metrics.httpRequestDuration.observations (r.method, r.path)
          ++ [clk.obsElapsed] ∧
    (∀ other : GoString × GoString, other ≠ (r.method, r.path) →
      (requestLogger next w r clk st).state.metrics.httpRequestDuration.observations other
        = st.metrics.httpRequestDuration.observations other) ∧
    (requestLogger next w r clk st).state.metrics.appInfo = st.metrics.appInfo ∧
    (requestLogger next w r clk st).state.metrics.httpRequestsTotal.total
      = st.metrics.httpRequestsTotal.total + 1 ∧
    (serveAll arrivals st).metrics.httpRequestsTotal.total
      = st.metrics.httpRequestsTotal.total + arrivals.length := by
  rw [requestLogger_returned next w r clk st hret hm hp]
  refine ⟨rfl, ?_, ?_, ?_, ?_, rfl, ?_, serveAll_total arrivals st hall⟩
  · exact Vec.get_update_self 0 _ _ _
  · intro other hne
    exact Vec.get_update_other 0 _ _ _ other hne
  · exact Vec.get_update_self [] _ _ _
  · intro other hne
    exact Vec.get_update_other [] _ _ _ other hne
  · exact CounterVec.total_update _ _

/-- The counting of valid requests, on a `GET /` and a `GET /unknown` served by
`handleRoot` from the state left by `init()`. -/
theorem requestLogger_counts_valid_request_witness :
    (requestLogger handleRoot [] (Request.plain "GET" "/unknown") ⟨1500, 1600⟩
      ⟨Metrics.init "go1.22", []⟩).state.metrics.httpRequestsTotal
      = [((GoString.lit "GET", GoString.lit "/unknown", GoString.lit "404"), 1)] ∧
    (serveAll
      [⟨handleRoot, Request.plain "GET" "/", ⟨900, 950⟩⟩,
       ⟨handleRoot, Request.plain "GET" "/unknown", ⟨1500, 1600⟩⟩]
      ⟨Metrics.init "go1.22", []⟩).metrics.httpRequestsTotal.total
      = (Metrics.init "go1.22").httpRequestsTotal.total + 2 :=
  ⟨by decide,
   (requestLogger_counts_valid_request handleRoot [] (Request.plain "GET" "/unknown")
      ⟨1500, 1600⟩ ⟨Metrics.init "go1.22", []⟩
      [⟨handleRoot, Request.plain "GET" "/", ⟨900, 950⟩⟩,
       ⟨handleRoot, Request.plain "GET" "/unknown", ⟨1500, 1600⟩⟩]
      (by decide) (by decide) (by decide) (by decide)).2.2.2.2.2.2.2⟩

/-- C4 fails on the code at `GET /%ff`, whose decoded path is the bytes `[47, 255]`:
`handleRoot` returns having answered 404 and the request is logged with status 404,
but `WithLabelValues` rejects the path, so the wrapper panics with
`http_requests_total` not incremented (its total stays 0, not 1) and no duration
observed. -/
theorem requestLogger_drops_invalid_path :
    utf8.ValidString [47, 255] = false ∧
    (handleRoot ⟨GoString.lit "GET", [47, 255], [], []⟩).outcome = .returned ∧
    sentStatus (handleRoot ⟨GoString.lit "GET", [47, 255], [], []⟩).calls = some 404 ∧
    (requestLogger handleRoot [] ⟨GoString.lit "GET", [47, 255], [], []⟩ ⟨1500, 1600⟩
      ⟨Metrics.init "go1.22", []⟩).outcome = .panicked ∧
    (requestLogger handleRoot [] ⟨GoString.lit "GET", [47, 255], [], []⟩ ⟨1500, 1600⟩
      ⟨Metrics.init "go1.22", []⟩).state.log
      = [{ method := GoString.lit "GET", path := [47, 255], status := 404,
           elapsed := 1500 }] ∧
    (requestLogger handleRoot [] ⟨GoString.lit "GET", [47, 255], [], []⟩ ⟨1500, 1600⟩
      ⟨Metrics.init "go1.22", []⟩).state.metrics.httpRequestsTotal.value
        (GoString.lit "GET", [47, 255], fmtDecimal 404) = 0 ∧
    (requestLogger handleRoot [] ⟨GoString.lit "GET", [47, 255], [], []⟩ ⟨1500, 1600⟩
      ⟨Metrics.init "go1.22", []⟩).state.metrics.httpRequestsTotal.total
      = (Metrics.init "go1.22").httpRequestsTotal.total ∧
    (requestLogger handleRoot [] ⟨GoString.lit "GET", [47, 255], [], []⟩ ⟨1500, 1600⟩
      ⟨Metrics.init "go1.22", []⟩).state.metrics.httpRequestDuration = [] := by
  refine ⟨by decide, by decide, by decide, by decide, by decide, by decide, by decide,
    by decide⟩

/-- C5 as stated fails: a handler that panics at once leaves `requestLogger` with
the panic, no `WriteHeader` (so no 5xx) forwarded, the counter total not raised and
no duration observation recorded. -/
theorem panic_drops_metrics :
    (requestLogger (fun _ => ⟨[], .panicked⟩) [] (Request.plain "GET" "/health")
      ⟨10, 20⟩ ⟨Metrics.init "go1.22", []⟩).outcome = .panicked ∧
    writeHeaderCodes (requestLogger (fun _ => ⟨[], .panicked⟩) []
      (Request.plain "GET" "/health") ⟨10, 20⟩ ⟨Metrics.init "go1.22", []⟩).writer = [] ∧
    ¬ ((requestLogger (fun _ => ⟨[], .panicked⟩) [] (Request.plain "GET" "/health")
      ⟨10, 20⟩ ⟨Metrics.init "go1.22", []⟩).state.metrics.httpRequestsTotal.total
        = (Metrics.init "go1.22").httpRequestsTotal.total + 1) ∧
    (requestLogger (fun _ => ⟨[], .panicked⟩) [] (Request.plain "GET" "/health")
      ⟨10, 20⟩ ⟨Metrics.init "go1.22", []⟩).state.metrics.httpRequestDuration.observations
        (GoString.lit "GET", GoString.lit "/health") = [] := by
  decide

/-- C5, amended: when the inner handler panics, `requestLogger` does not run its
post-handler statements: the panic leaves the wrapper, the underlying writer has
received only the handler's own calls (none added by the wrapper), and the metrics
and the log are exactly as before. -/
theorem requestLogger_panic_propagates (next : Handler) (w : List Call) (r : Request)
    (clk : Clock) (st : ServerState) (hpanic : (next r).outcome = .panicked) :
    (requestLogger next w r clk st).outcome = .panicked ∧
    (requestLogger next w r clk st).writer = w ++ (next r).calls ∧
    (requestLogger next w r clk st).state = st := by
  rw [requestLogger_panicked next w r clk st hpanic]
  exact ⟨rfl, responseWriter.callAll_writer _ _, rfl⟩

/-- C5 amended, on a handler that writes a header and then panics. -/
theorem requestLogger_panic_propagates_witness :
    ((fun _ => ⟨[.headerSet "X-Trace" "1"], .panicked⟩ : Handler)
      (Request.plain "GET" "/health")).outcome = .panicked ∧
    (requestLogger (fun _ => ⟨[.headerSet "X-Trace" "1"], .panicked⟩) []
      (Request.plain "GET" "/health") ⟨10, 20⟩ ⟨Metrics.init "go1.22", []⟩).state
      = ⟨Metrics.init "go1.22", []⟩ :=
  ⟨rfl,
   (requestLogger_panic_propagates (fun _ => ⟨[.headerSet "X-Trace" "1"], .panicked⟩) []
      (Request.plain "GET" "/health") ⟨10, 20⟩ ⟨Metrics.init "go1.22", []⟩ rfl).2.2⟩

/-- C10 as stated fails in two ways. A handler that calls `WriteHeader 100` and
then `WriteHeader 404` is counted under 404 and 404 is also the status line sent:
the first call did not fix a different one. And a `POST` on the path bytes
`[47, 192]` that `handleStatus` answers with 405 is counted under no label at all. -/
theorem last_code_counterexample :
    lastWriteHeader 200 [.writeHeader 100, .writeHeader 404] = 404 ∧
    sentStatus [.writeHeader 100, .writeHeader 404] = some 404 ∧
    (requestLogger (fun _ => ⟨[.writeHeader 100, .writeHeader 404], .returned⟩) []
      (Request.plain "GET" "/x") ⟨5, 6⟩
      ⟨Metrics.init "go1.22", []⟩).state.metrics.httpRequestsTotal
      = [((GoString.lit "GET", GoString.lit "/x", GoString.lit "404"), 1)] ∧
    (handleStatus "host" (fun _ => none)
      ⟨"1m0s", "go1.22", 4, ⟨0, 0, 0, 0⟩, "2024-01-01T00:00:00Z"⟩
      ⟨GoString.lit "POST", [47, 192], [], []⟩).outcome = .returned ∧
    lastWriteHeader 200 (handleStatus "host" (fun _ => none)
      ⟨"1m0s", "go1.22", 4, ⟨0, 0, 0, 0⟩, "2024-01-01T00:00:00Z"⟩
      ⟨GoString.lit "POST", [47, 192], [], []⟩).calls = 405 ∧
    (requestLogger (handleStatus "host" (fun _ => none)
        ⟨"1m0s", "go1.22", 4, ⟨0, 0, 0, 0⟩, "2024-01-01T00:00:00Z"⟩) []
      ⟨GoString.lit "POST", [47, 192], [], []⟩ ⟨5, 6⟩
      ⟨Metrics.init "go1.22", []⟩).state.metrics.httpRequestsTotal.value
        (GoString.lit "POST", [47, 192], fmtDecimal 405) = 0 := by
  refine ⟨by decide, by decide, by decide, by decide, by decide, by decide⟩

/-- C10, amended: when the inner handler returns, the status captured and logged by
`requestLogger` is the code of the handler's last `WriteHeader` call, 200 if it made
none, and a request whose method and path are valid UTF-8 is counted under the
decimal string of that code. When the first call other than header changes is
`WriteHeader a` with `a` equal to 101 or in 200..999, the status line sent is `a`
whatever follows, and when it is a `Write` the status line sent is 200; so a handler
that goes on to a last `WriteHeader c` has `c` recorded while `a`, respectively 200,
is sent. Each of `handleHealth`, `handleStatus` and `handleRoot` calls `WriteHeader`
at most once and its recorded code is the status sent. -/
theorem requestLogger_records_last_code (next : Handler) (w : List Call) (r : Request)
    (clk : Clock) (st : ServerState) (hret : (next r).outcome = .returned) :
    ((wrapWriter w).callAll (next r).calls).statusCode
      = lastWriteHeader 200 (next r).calls ∧
    (requestLogger next w r clk st).state.log
      = st.log ++ [{ method := r.method, path := r.path,
                     status := lastWriteHeader 200 (next r).calls,
                     elapsed := clk.logElapsed }] ∧
    (utf8.ValidString r.method = true → utf8.ValidString r.path = true →
      (requestLogger next w r clk st).outcome = .returned ∧
      st.metrics.httpRequestsTotal.Inc
          (r.method, r.path, fmtDecimal (lastWriteHeader 200 (next r).calls))
        = some (requestLogger next w r clk st).state.metrics.httpRequestsTotal ∧
      (requestLogger next w r clk st).state.metrics.httpRequestsTotal.value
          (r.method, r.path, fmtDecimal (lastWriteHeader 200 (next r).calls))
        = st.metrics.httpRequestsTotal.value
            (r.method, r.path, fmtDecimal (lastWriteHeader 200 (next r).calls)) + 1) ∧
    (∀ (pre rest : List Call) (a : Int), headerCallsOnly pre = true →
      (a = 101 ∨ 200 ≤ a) → a ≤ 999 →
      sentStatus (pre ++ .writeHeader a :: rest) = some a ∧
      lastWriteHeader 200 (pre ++ .writeHeader a :: rest) = lastWriteHeader a rest) ∧
    (∀ (pre rest : List Call) (b : Body), headerCallsOnly pre = true →
      sentStatus (pre ++ .write b :: rest) = some 200 ∧
      lastWriteHeader 200 (pre ++ .write b :: rest) = lastWriteHeader 200 rest) ∧
    (∀ (mid : List Call) (dflt c : Int),
      lastWriteHeader dflt (mid ++ [.writeHeader c]) = c) ∧
    (∀ (rt : Runtime) (q : Request),
      (writeHeaderCodes (handleHealth rt q).calls).length ≤ 1 ∧
      sentStatus (handleHealth rt q).calls
        = some (lastWriteHeader 200 (handleHealth rt q).calls)) ∧
    (∀ (hostname : String) (osEnv : Env) (rt : Runtime) (q : Request),
      (writeHeaderCodes (handleStatus hostname osEnv rt q).calls).length ≤ 1 ∧
      sentStatus (handleStatus hostname osEnv rt q).calls
        = some (lastWriteHeader 200 (handleStatus hostname osEnv rt q).calls)) ∧
    (∀ q : Request,
      (writeHeaderCodes (handleRoot q).calls).length ≤ 1 ∧
      sentStatus (handleRoot q).calls = some (lastWriteHeader 200 (handleRoot q).calls)) := by
  have hstatus : ((wrapWriter w).callAll (next r).calls).statusCode
      = lastWriteHeader 200 (next r).calls := by
    rw [responseWriter.callAll_status]
    rfl
  refine ⟨hstatus, ?_, ?_, ?_, ?_, lastWriteHeader_snoc, ?_, ?_, ?_⟩
  · rw [requestLogger_log next w r clk st hret, hstatus]
  · intro hm hp
    rw [requestLogger_returned next w r clk st hret hm hp, hstatus]
    exact ⟨rfl, CounterVec.Inc_of_valid _ _ _ _ hm hp, Vec.get_update_self 0 _ _ _⟩
  · intro pre rest a hpre ha1 ha2
    refine ⟨sentStatus_of_committed pre rest _ a hpre ?_, ?_⟩
    · intro resp hnone
      have h1 : ¬ (a < 100 ∨ 999 < a) := by omega
      have h2 : ¬ (100 ≤ a ∧ a ≤ 199 ∧ a ≠ 101) := by omega
      exact ⟨{ resp with status := some a, sent := resp.header },
        by simp [Response.apply, hnone, h1, h2], rfl⟩
    · rw [lastWriteHeader_headers pre _ 200 hpre]
      rfl
  · intro pre rest b hpre
    refine ⟨sentStatus_of_committed pre rest _ 200 hpre ?_, ?_⟩
    · intro resp hnone
      exact ⟨{ resp with status := some http.StatusOK, sent := resp.header,
                         body := resp.body ++ [b] },
        by simp [Response.apply, hnone], rfl⟩
    · rw [lastWriteHeader_headers pre _ 200 hpre]
      rfl
  · intro rt q
    simp [sentStatus, serverResponse, handleHealth, Response.applyAll, Response.apply,
      Response.fresh, Response.finish, http.StatusOK, lastWriteHeader, writeHeaderCodes]
  · intro hostname osEnv rt q
    by_cases hm : q.method = http.MethodGet
    · simp [handleStatus, hm, sentStatus, serverResponse, Response.applyAll,
        Response.apply, Response.fresh, Response.finish, http.StatusOK, lastWriteHeader,
        writeHeaderCodes]
    · simp [handleStatus, hm, sentStatus, serverResponse, http.Error, Response.applyAll,
        Response.apply, Response.fresh, Response.finish, http.StatusMethodNotAllowed,
        lastWriteHeader, writeHeaderCodes]
  · intro q
    by_cases hp : q.path = GoString.lit "/"
    · simp [handleRoot, hp, sentStatus, serverResponse, Response.applyAll,
        Response.apply, Response.fresh, Response.finish, http.StatusOK, lastWriteHeader,
        writeHeaderCodes]
    · simp [handleRoot, hp, sentStatus, serverResponse, http.NotFound, http.Error,
        Response.applyAll, Response.apply, Response.fresh, Response.finish,
        http.StatusNotFound, lastWriteHeader, writeHeaderCodes]

/-- C10 amended, on a `GET /x` whose handler calls `WriteHeader 404` and then
`WriteHeader 500`: it is logged and counted under 500 although 404 is the status sent. -/
theorem requestLogger_records_last_code_witness :
    ((fun _ => ⟨[.writeHeader 404, .writeHeader 500], .returned⟩ : Handler)
      (Request.plain "GET" "/x")).outcome = .returned ∧
    utf8.ValidString (Request.plain "GET" "/x").method = true ∧
    utf8.ValidString (Request.plain "GET" "/x").path = true ∧
    (requestLogger (fun _ => ⟨[.writeHeader 404, .writeHeader 500], .returned⟩) []
      (Request.plain "GET" "/x") ⟨5, 6⟩ ⟨Metrics.init "go1.22", []⟩).outcome = .returned ∧
    (requestLogger (fun _ => ⟨[.writeHeader 404, .writeHeader 500], .returned⟩) []
      (Request.plain "GET" "/x") ⟨5, 6⟩
      ⟨Metrics.init "go1.22", []⟩).state.metrics.httpRequestsTotal
      = [((GoString.lit "GET", GoString.lit "/x", GoString.lit "500"), 1)] ∧
    sentStatus ([] ++ Call.writeHeader 404 :: [.writeHeader 500]) = some 404 :=
  ⟨rfl, by decide, by decide,
   ((requestLogger_records_last_code
      (fun _ => ⟨[.writeHeader 404, .writeHeader 500], .returned⟩) []
      (Request.plain "GET" "/x") ⟨5, 6⟩ ⟨Metrics.init "go1.22", []⟩ rfl).2.2.1
      (by decide) (by decide)).1,
   by decide,
   ((requestLogger_records_last_code
      (fun _ => ⟨[.writeHeader 404, .writeHeader 500], .returned⟩) []
      (Request.plain "GET" "/x") ⟨5, 6⟩ ⟨Metrics.init "go1.22", []⟩ rfl).2.2.2.1
      [] [.writeHeader 500] 404 rfl (by decide) (by decide)).1⟩

/-! ## Process lifecycle -/

/-- C7: a signal moves `starting` and `listening` to `draining`; the drain calls
`srv.Shutdown` with a deadline of 30 seconds; when that call reports an error the
process ends with exit status 1, when it reports none the process reaches `stopped`
with exit status 0; whatever happens from `draining`, an exit status is 1 with a
shutdown error or 0 without one. -/
theorem drain_exit_status (Shutdown : Int → Option String) :
    step Shutdown .listening .signal = .draining ∧
    step Shutdown .starting .signal = .draining ∧
    shutdownTimeout = 30 * 1000000000 ∧
    (Shutdown (30 * 1000000000) ≠ none →
      step Shutdown .draining .shutdownReturns = .fatal ∧
      (step Shutdown .draining .shutdownReturns).exitStatus = some 1) ∧
    (Shutdown (30 * 1000000000) = none →
      step Shutdown .draining .shutdownReturns = .stopped ∧
      (step Shutdown .draining .shutdownReturns).exitStatus = some 0) ∧
    (∀ (es : List Event) (n : Nat),
      (runLifecycle Shutdown .draining es).exitStatus = some n →
      (n = 1 ∧ Shutdown (30 * 1000000000) ≠ none) ∨
      (n = 0 ∧ Shutdown (30 * 1000000000) = none)) := by
  have ht : shutdownTimeout = 30 * 1000000000 := rfl
  refine ⟨rfl, rfl, ht, ?_, ?_, ?_⟩
  · intro herr
    cases hs : Shutdown (30 * 1000000000) with
    | none => exact absurd hs herr
    | some msg =>
      have hd : drain Shutdown = .fatal := by
        unfold drain
        rw [ht, hs]
      have hstep : step Shutdown .draining .shutdownReturns = .fatal := hd
      rw [hstep]
      exact ⟨rfl, rfl⟩
  · intro hok
    have hd : drain Shutdown = .stopped := by
      unfold drain
      rw [ht, hok]
    have hstep : step Shutdown .draining .shutdownReturns = .stopped := hd
    rw [hstep]
    exact ⟨rfl, rfl⟩
  · intro es n hn
    rcases runLifecycle_draining Shutdown es with h | h
    · rw [h] at hn
      simp [Phase.exitStatus] at hn
    · rw [h] at hn
      unfold drain at hn
      rw [ht] at hn
      cases hs : Shutdown (30 * 1000000000) with
      | none =>
        rw [hs] at hn
        simp [Phase.exitStatus] at hn
        exact Or.inr ⟨hn.symm, rfl⟩
      | some msg =>
        rw [hs] at hn
        simp [Phase.exitStatus] at hn
        exact Or.inl ⟨hn.symm, by simp⟩

/-- C7, with a shutdown that misses its deadline and with one that completes. -/
theorem drain_exit_status_witness :
    (runLifecycle (fun _ => some "context deadline exceeded") .starting
      [.bound, .signal, .shutdownReturns]).exitStatus = some 1 ∧
    (runLifecycle (fun _ => none) .starting
      [.bound, .signal, .shutdownReturns]).exitStatus = some 0 :=
  ⟨((drain_exit_status (fun _ => some "context deadline exceeded")).2.2.2.1
      (by simp)).2,
   ((drain_exit_status (fun _ => none)).2.2.2.2.1 rfl).2⟩

/-! ## Configuration -/

/-- C9 as stated fails: with `PORT` set to `8080`, `getEnv` returns a value equal to
the fallback although the key is set, so the port is `8080` without `PORT` being unset. -/
theorem getEnv_fallback_value_when_set :
    (fun key => if key = "PORT" then some "8080" else none : Env) "PORT" ≠ none ∧
    getEnv (fun key => if key = "PORT" then some "8080" else none) "PORT" "8080" = "8080" ∧
    port (fun key => if key = "PORT" then some "8080" else none) = "8080" ∧
    ¬ (getEnv (fun key => if key = "PORT" then some "8080" else none) "PORT" "8080" = "8080"
        ↔ (fun key => if key = "PORT" then some "8080" else none : Env) "PORT" = none) := by
  decide

/-- C9, amended: `getEnv` returns the value of the key whenever the key is set, the
empty string included, and the fallback whenever it is not set; its result equals the
fallback exactly when the key is unset or set to the fallback itself. So the port
is `8080` and the environment `development` when `PORT`, `ENVIRONMENT` are unset, and
otherwise their values; the server address is `:` followed by the port. -/
theorem getEnv_lookup_or_fallback (env : Env) (key fallback : String) :
    (∀ val : String, env key = some val → getEnv env key fallback = val) ∧
    (env key = some "" → getEnv env key fallback = "") ∧
    (env key = none → getEnv env key fallback = fallback) ∧
    (getEnv env key fallback = fallback ↔ env key = none ∨ env key = some fallback) ∧
    (env "PORT" = none → port env = "8080") ∧
    (∀ val : String, env "PORT" = some val → port env = val) ∧
    (env "ENVIRONMENT" = none → environment env = "development") ∧
    (∀ val : String, env "ENVIRONMENT" = some val → environment env = val) ∧
    serverAddr env = ":" ++ port env := by
  refine ⟨?_, ?_, ?_, ?_, ?_, ?_, ?_, ?_, rfl⟩
  · intro val h
    simp [getEnv, h]
  · intro h
    simp [getEnv, h]
  · intro h
    simp [getEnv, h]
  · unfold getEnv
    cases h : env key with
    | none => simp
    | some val => simp
  · intro h
    simp [port, getEnv, h]
  · intro val h
    simp [port, getEnv, h]
  · intro h
    simp [environment, getEnv, h]
  · intro val h
    simp [environment, getEnv, h]

/-- C9 amended, on an environment with `PORT` set to the empty string and
`ENVIRONMENT` unset. -/
theorem getEnv_lookup_or_fallback_witness :
    port (fun key => if key = "PORT" then some "" else none) = "" ∧
    environment (fun key => if key = "PORT" then some "" else none) = "development" ∧
    serverAddr (fun key => if key = "PORT" then some "" else none) = ":" :=
  ⟨(getEnv_lookup_or_fallback (fun key => if key = "PORT" then some "" else none)
      "PORT" "8080").2.2.2.2.2.1 "" (by decide),
   (getEnv_lookup_or_fallback (fun key => if key = "PORT" then some "" else none)
      "PORT" "8080").2.2.2.2.2.2.1 (by decide),
   by decide⟩

end InfraDeployer
